import Mathlib

/-!
Shallow embedding of `src/packages/apollo/src/config.ts` (apollo-tooling
configuration resolution engine) and proofs about it.

Layer 1 (normalization, `loadEndpointConfig` .. `loadConfig`): the source is
duck-typed JavaScript, so raw inputs are modelled by `JSVal`, a fragment of
JavaScript runtime values large enough for every shape the module inspects
(undefined, null, booleans, numbers, strings, functions, arrays, objects).
Property access, `typeof`, truthiness, `||`, string/array prototype methods
and the in-place mutation performed by `loadEndpointConfig` are modelled
explicitly.  Functions that can throw at runtime (property access on
null/undefined, destructuring an empty array, calling a method of a
non-string) return `Except JSError`.

Layer 2 (resolution, `resolveSchema` / `resolveDocumentSets`): operates on the
canonical `ApolloConfig` shape declared by the TypeScript interfaces.  The
external collaborators (GraphQL schema construction, introspection fetch,
glob expansion, minimatch, path.relative) are opaque parameters gathered in
`Collaborators`.  The unbounded recursion of `resolveSchema` and the
`while`-loop of `resolveDocumentSets` are given explicit fuel; exhausting the
fuel at every bound models divergence of the JavaScript original.
-/

/-- Fragment of JavaScript runtime values used by the config module.
Object field lists represent runtime objects, whose keys are distinct;
all values constructed in this development keep the keys distinct. -/
inductive JSVal where
  | undefined : JSVal
  | null : JSVal
  | bool : Bool → JSVal
  | num : Int → JSVal
  | str : String → JSVal
  | fn : JSVal
  | arr : List JSVal → JSVal
  | obj : List (String × JSVal) → JSVal

/-- JavaScript truthiness. -/
def truthy : JSVal → Bool
  | .undefined => false
  | .null => false
  | .bool b => b
  | .num n => n != 0
  | .str s => s ≠ ""
  | .fn => true
  | .arr _ => true
  | .obj _ => true

/-- JavaScript `typeof`. -/
def typeOf : JSVal → String
  | .undefined => "undefined"
  | .null => "object"
  | .bool _ => "boolean"
  | .num _ => "number"
  | .str _ => "string"
  | .fn => "function"
  | .arr _ => "object"
  | .obj _ => "object"

/-- `String.prototype` methods: property access on a string primitive boxes it
and finds these as functions.  (`length` is handled separately.) -/
def stringMethods : List String :=
  ["includes", "replace", "match", "split", "endsWith", "startsWith",
   "indexOf", "lastIndexOf", "charAt", "charCodeAt", "codePointAt", "concat",
   "slice", "substring", "toLowerCase", "toUpperCase", "trim", "padStart",
   "padEnd", "repeat", "at", "search", "localeCompare", "normalize",
   "toString", "valueOf"]

/-- `Array.prototype` methods visible through property access on an array. -/
def arrayMethods : List String :=
  ["map", "flatMap", "filter", "includes", "push", "pop", "shift", "unshift",
   "slice", "splice", "indexOf", "concat", "join", "find", "findIndex",
   "some", "every", "forEach", "reduce", "toString", "valueOf"]

def lookupField : List (String × JSVal) → String → JSVal
  | [], _ => .undefined
  | (k, v) :: rest, key => if k = key then v else lookupField rest key

/-- Property read `v[key]` on a non-nullish value (reads on `undefined`/`null`
throw and are modelled by `getPropE`).  Prototype-inherited members are
modelled only where the module can observe them (string/array methods,
`length`). -/
def getProp (v : JSVal) (key : String) : JSVal :=
  match v with
  | .obj fields => lookupField fields key
  | .str s =>
      if key = "length" then .num s.length
      else if key ∈ stringMethods then .fn
      else .undefined
  | .arr xs =>
      if key = "length" then .num xs.length
      else if key ∈ arrayMethods then .fn
      else .undefined
  | _ => .undefined

/-- Runtime failures of the module.  `typeError` covers the JavaScript
`TypeError`s the code can raise (property access on null/undefined,
destructuring an empty entry list, calling a missing method);
`unknownSchemaReference` is the failure of `resolveSchema` on a name absent
from `config.schemas` (at runtime: TypeError reading `.extends` of
`undefined`); `outOfFuel` marks exhaustion of the explicit fuel bound and, when
it occurs at every bound, divergence of the JavaScript original. -/
inductive JSError where
  | typeError : JSError
  | unknownSchemaReference : JSError
  | outOfFuel : JSError
deriving Repr, DecidableEq

/-- Property read that throws on `undefined`/`null` receivers. -/
def getPropE (v : JSVal) (key : String) : Except JSError JSVal :=
  match v with
  | .undefined => .error .typeError
  | .null => .error .typeError
  | _ => .ok (getProp v key)

def setFields : List (String × JSVal) → String → JSVal → List (String × JSVal)
  | [], k, v => [(k, v)]
  | (k', v') :: rest, k, v =>
      if k' = k then (k, v) :: rest else (k', v') :: setFields rest k v

/-- Property write `o[key] = v`.  On an object the key keeps its position or is
appended (JavaScript key-order semantics); on a primitive the write is silently
dropped (sloppy-mode semantics; the module never hits that case). -/
def setProp (o : JSVal) (key : String) (v : JSVal) : JSVal :=
  match o with
  | .obj fields => .obj (setFields fields key v)
  | other => other

/-- JavaScript `a || b`. -/
def jsOr (a b : JSVal) : JSVal := if truthy a then a else b

/-- The value of an environment variable as seen from `process.env`. -/
def envVal : Option String → JSVal
  | some s => .str s
  | none => .undefined

/-- Whether `pat` is an initial segment of the character list. -/
def charsStartWith : List Char → List Char → Bool
  | _, [] => true
  | [], _ :: _ => false
  | c :: cs, p :: ps => c = p && charsStartWith cs ps

/-- Replace the first occurrence of `pat` by `rep` in a character list;
no occurrence leaves the list unchanged. -/
def replaceFirstChars (pat rep : List Char) : List Char → List Char
  | [] => []
  | c :: cs =>
      if charsStartWith (c :: cs) pat then rep ++ (c :: cs).drop pat.length
      else c :: replaceFirstChars pat rep cs

/-- First-occurrence replacement, the semantics of JavaScript
`s.replace(pat, rep)` with a plain-string pattern: only the first occurrence
is replaced, case-sensitively. -/
def replaceFirst (s pat rep : String) : String :=
  ⟨replaceFirstChars pat.data rep.data s.data⟩

def occursInChars (pat : List Char) : List Char → Bool
  | [] => pat.isEmpty
  | c :: cs => charsStartWith (c :: cs) pat || occursInChars pat cs

/-- Whether `pat` occurs in `s` (substring test, the `/http/` regex match of
`isUrl`). -/
def occursIn (s pat : String) : Bool := occursInChars pat.data s.data

/-- config.ts line 58: the default local endpoint. -/
def defaultLocalUrl : String := "http://localhost:4000/graphql"

/-- config.ts lines 61–70: the post-step of `loadEndpointConfig` that derives
`subscriptions` from `url`.  In the source this ASSIGNS INTO the record it was
given (`preSubscriptions.subscriptions = ...`), so when the record is the
caller's own endpoint object the caller's object is mutated. -/
def addSubscriptions (pre : JSVal) : Except JSError JSVal :=
  if truthy pre ∧ ¬ truthy (getProp pre "subscriptions") ∧
      truthy (getProp pre "url") then
    match getProp pre "url" with
    | .str u => .ok (setProp pre "subscriptions" (.str (replaceFirst u "http" "ws")))
    | _ => .error .typeError
  else .ok pre

/-- config.ts lines 46–73, `loadEndpointConfig(obj, shouldDefaultURL)`.
Returns `(result, objAfter)` where `objAfter` is the argument as observable
after the call: when `obj` is itself used as the endpoint record (any truthy
non-string), the result aliases the argument and the in-place mutation of
`addSubscriptions` is visible through it. -/
def loadEndpointConfig (obj : JSVal) (shouldDefaultURL : Bool) :
    Except JSError (JSVal × JSVal) :=
  if typeOf obj = "string" then do
    let r ← addSubscriptions (.obj [("url", obj)])
    .ok (r, obj)
  else if truthy obj then do
    let r ← addSubscriptions obj
    .ok (r, r)
  else if shouldDefaultURL then do
    let r ← addSubscriptions (.obj [("url", .str defaultLocalUrl)])
    .ok (r, obj)
  else .ok (.undefined, obj)

/-- Object spread `{...obj, overrides}`: each override key keeps its position
when already present, otherwise it is appended in override order.  A non-object
base spreads to nothing the module can observe. -/
def spreadWith (obj : JSVal) (overrides : List (String × JSVal)) : JSVal :=
  overrides.foldl (fun acc kv => setProp acc kv.1 kv.2)
    (match obj with
     | .obj fields => .obj fields
     | _ => .obj [])

/-- config.ts lines 75–87, `loadSchemaConfig(obj, defaultEndpoint)`.
`env` is `process.env.ENGINE_API_KEY`.  Returns `(result, objAfter)` where
`objAfter` is the raw input as observable after the call: when its `endpoint`
field held an object, that nested object may have been mutated in place by
`loadEndpointConfig`. -/
def loadSchemaConfig (env : Option String) (obj : JSVal)
    (defaultEndpoint : Bool) : Except JSError (JSVal × JSVal) := do
  let rawEndpoint ← getPropE obj "endpoint"
  let rawEngineKey ← getPropE obj "engineKey"
  let epPair ← loadEndpointConfig rawEndpoint (!truthy rawEngineKey && defaultEndpoint)
  let result := spreadWith obj
    [("endpoint", epPair.1), ("engineKey", jsOr (envVal env) rawEngineKey)]
  let objAfter :=
    match rawEndpoint with
    | .obj _ => setProp obj "endpoint" epPair.2
    | _ => obj
  .ok (result, objAfter)

/-- config.ts lines 89–105, `loadDocumentSet(obj)`.  The result is the runtime
object `{schema, includes, excludes}`; no runtime check forces `includes` or
`excludes` to be string arrays, so the fields keep whatever the duck-typed
branches produce. -/
def loadDocumentSet (obj : JSVal) : Except JSError JSVal := do
  let s ← getPropE obj "schema"
  let inc ← getPropE obj "includes"
  let exc ← getPropE obj "excludes"
  .ok (.obj
    [("schema", s),
     ("includes",
       if typeOf inc = "string" then .arr [inc]
       else if truthy inc then inc
       else .arr [.str "**"]),
     ("excludes",
       if typeOf exc = "string" then .arr [exc]
       else if truthy exc then exc
       else .arr [.str "node_modules/**"])])

/-- `Object.entries(v)` for a truthy `v`: an object yields its own entries in
key order; a string yields indexed one-character entries; an array yields
indexed entries; other primitives yield no entries. -/
def jsEntries (v : JSVal) : List (String × JSVal) :=
  match v with
  | .obj fields => fields
  | .str s => s.data.enum.map (fun p => (toString p.1, JSVal.str (String.singleton p.2)))
  | .arr xs => xs.enum.map (fun p => (toString p.1, p.2))
  | _ => []

/-- config.ts lines 145–147, `isUrl(maybeUrl)`: `!!maybeUrl.match(/http/)`.
Calling `.match` on a non-string receiver is a TypeError. -/
def isUrl (v : JSVal) : Except JSError Bool :=
  match v with
  | .str s => .ok (occursIn s "http")
  | _ => .error .typeError

/-- config.ts lines 149–151, `isFile(maybeFile)`:
`!isUrl(maybeFile) && fs.existsSync(maybeFile)` with the filesystem passed in
as the `fileExists` collaborator. -/
def isFile (fileExists : String → Bool) (v : JSVal) : Except JSError Bool := do
  let u ← isUrl v
  match v with
  | .str s => .ok (!u && fileExists s)
  | _ => .ok false

/-- config.ts lines 107–143, `getSchemasFromServices({obj, defaultEndpoint,
defaultSchema})`.  The schema mapping is an insertion-ordered association
list; assignment to an existing key keeps its position (`setFields`).
`const [[serviceName, schemaRef]] = Object.entries(obj.services)` destructures
the FIRST entry and throws a TypeError when the entry list is empty. -/
def getSchemasFromServices (env : Option String) (fileExists : String → Bool)
    (obj : JSVal) (defaultEndpoint defaultSchema : Bool) :
    Except JSError (List (String × JSVal)) := do
  let services ← getPropE obj "services"
  let schemas ←
    if truthy services then
      match jsEntries services with
      | [] => .error JSError.typeError
      | (serviceName, schemaRef) :: _ => do
          let u ← isUrl schemaRef
          let f ← isFile fileExists schemaRef
          let ep ←
            if u then do
              let p ← loadEndpointConfig schemaRef true
              Except.ok p.1
            else .ok JSVal.undefined
          Except.ok [(serviceName, JSVal.obj
            [("endpoint", ep),
             ("engineKey", envVal env),
             ("clientSide", .bool false),
             ("schema", if f then schemaRef else .null)])]
    else .ok ([] : List (String × JSVal))
  let schemas ←
    if schemas.length == 0 && defaultSchema then do
      let d ← loadSchemaConfig env (.obj []) defaultEndpoint
      Except.ok [("default", d.1)]
    else .ok schemas
  let clientSchema ← getPropE obj "clientSchema"
  if truthy clientSchema then
    let ext : JSVal :=
      match (schemas.map Prod.fst).head? with
      | some k => .str k
      | none => .undefined
    Except.ok (setFields schemas "default" (JSVal.obj
      [("schema", clientSchema), ("clientSide", .bool true), ("extends", ext)]))
  else .ok schemas

def splitSlash : List Char → List Char → List (List Char)
  | acc, [] => [acc.reverse]
  | acc, c :: cs =>
      if c = '/' then acc.reverse :: splitSlash [] cs
      else splitSlash (c :: acc) cs

/-- `path.basename`: the last nonempty `/`-separated component. -/
def basename (p : String) : String :=
  ⟨((splitSlash [] p.data).filter (· ≠ [])).getLastD p.data⟩

/-- Runtime shape of the record returned by `loadConfig` (config.ts lines
166–180): the `schemas`, `queries` and `engineEndpoint` fields hold whatever
JavaScript values the duck-typed normalizers produced. -/
structure ApolloConfigRaw where
  configFile : String
  projectFolder : String
  name : String
  schemas : List (String × JSVal)
  queries : List JSVal
  engineEndpoint : JSVal

/-- config.ts lines 153–181, `loadConfig(obj, configFile, configDir,
defaultEndpoint, defaultSchema)`. -/
def loadConfig (env : Option String) (fileExists : String → Bool)
    (obj : JSVal) (configFile configDir : String)
    (defaultEndpoint defaultSchema : Bool) : Except JSError ApolloConfigRaw := do
  let schemas ← getSchemasFromServices env fileExists obj defaultEndpoint defaultSchema
  let rawQueries ← getPropE obj "queries"
  let queryObjs : List JSVal :=
    if truthy rawQueries then
      match rawQueries with
      | .arr xs => xs
      | q => [q]
    else if schemas.length = 1 then
      [JSVal.obj [("schema", .str ((schemas.map Prod.fst).headD ""))]]
    else []
  let queries ← queryObjs.mapM loadDocumentSet
  let engineEndpoint ← getPropE obj "engineEndpoint"
  .ok { configFile := configFile, projectFolder := configDir,
        name := basename configDir, schemas := schemas, queries := queries,
        engineEndpoint := engineEndpoint }

/-- config.ts lines 16–21, interface `EndpointConfig` (canonical form). -/
structure EndpointConfig where
  url : Option String := none
  subscriptions : Option String := none
  headers : List (String × String) := []
  skipSSLValidation : Option Bool := none
deriving Repr, DecidableEq

/-- config.ts lines 23–29, interface `SchemaDependency`.  The source field
`extends` is a Lean keyword and is embedded as `extendsRef`. -/
structure SchemaDependency where
  schema : Option String := none
  endpoint : Option EndpointConfig := none
  engineKey : Option String := none
  extendsRef : Option String := none
  clientSide : Option Bool := none
deriving Repr, DecidableEq

/-- config.ts lines 31–35, interface `DocumentSet` (canonical form). -/
structure DocumentSet where
  schema : Option String := none
  includes : List String := []
  excludes : List String := []
deriving Repr, DecidableEq

/-- config.ts lines 37–44, interface `ApolloConfig`.  `schemas` is an
insertion-ordered association list with distinct keys. -/
structure ApolloConfig where
  configFile : String := ""
  projectFolder : String := ""
  name : Option String := none
  schemas : List (String × SchemaDependency) := []
  queries : List DocumentSet := []
  engineEndpoint : Option String := none
deriving Repr, DecidableEq

/-- JavaScript truthiness of an optional string field (`""` is falsy). -/
def optStrTruthy : Option String → Bool
  | some s => s ≠ ""
  | none => false

/-- JavaScript truthiness of an optional boolean field. -/
def optBoolTruthy : Option Bool → Bool
  | some b => b
  | none => false

/-- `(config.schemas || {})[key]`. -/
def lookupSchemas (config : ApolloConfig) (key : String) :
    Option SchemaDependency :=
  (config.schemas.find? (fun p => p.1 = key)).map Prod.snd

/-- `...(tag && { tag })`: the tag forwarded to a callee is dropped when falsy
(absent or the empty string). -/
def jsTag : Option String → Option String
  | some s => if s = "" then none else some s
  | none => none

/-- The external collaborators of the resolution layer (spec §6), opaque to
this core: the document/AST loader with the in-place client-field marking
applied by `visit`, the GraphQL schema construction primitives, the
introspection fetch (`loadSchema`), the glob expander (`fg.sync` rooted at a
cwd, absolute results), `minimatch`, and `path.relative`. -/
structure Collaborators (AST Schema Intro : Type) where
  loadQueryDocument : Option String → AST
  visitClientMark : AST → AST
  extendSchema : Option Schema → AST → Schema
  buildASTSchema : AST → Schema
  loadSchema : SchemaDependency → ApolloConfig → Option String → Option Intro
  buildClientSchema : Intro → Schema
  glob : String → String → List String
  minimatch : String → String → Bool
  relativePath : String → String → String

/-- config.ts lines 244–252, interface `ResolvedDocumentSet`. -/
structure ResolvedDocumentSet (Schema : Type) where
  schema : Option Schema
  endpoint : Option EndpointConfig
  engineKey : Option String
  documentPaths : List String
  originalSet : DocumentSet

/-- config.ts lines 254–299, `resolveSchema({name, config, tag})`, with
explicit fuel for the unbounded `extends` recursion (the source has no
visited-set guard).  A name absent from `config.schemas` makes the source read
`.extends` of `undefined` and throw; this failure is the
`unknownSchemaReference` error.  `loadAsAST` (lines 265–278) loads the
dependency's own SDL and, for a client-side dependency, marks every field
definition via `visit`. -/
def resolveSchema {AST Schema Intro : Type} (C : Collaborators AST Schema Intro) :
    Nat → ApolloConfig → String → Option String → Except JSError (Option Schema)
  | 0, _, _, _ => .error .outOfFuel
  | fuel + 1, config, name, tag =>
    match lookupSchemas config name with
    | none => .error .unknownSchemaReference
    | some referredSchema =>
      let loadAsAST : Unit → AST := fun _ =>
        let ast := C.loadQueryDocument referredSchema.schema
        if optBoolTruthy referredSchema.clientSide then C.visitClientMark ast
        else ast
      if optStrTruthy referredSchema.extendsRef then do
        let base ← resolveSchema C fuel config (referredSchema.extendsRef.getD "")
          (jsTag tag)
        .ok (some (C.extendSchema base (loadAsAST ())))
      else if optBoolTruthy referredSchema.clientSide then
        .ok (some (C.buildASTSchema (loadAsAST ())))
      else
        match C.loadSchema referredSchema config (jsTag tag) with
        | none => .ok none
        | some intro => .ok (some (C.buildClientSchema intro))

/-- config.ts lines 313–320, the `while (currentSchema)` loop collecting
`schemaPaths` along the `extends` chain, with explicit fuel (the loop has no
cycle guard).  `currentSchema.schema` is pushed only when truthy;
`schemas[currentSchema.extends!]` with an absent `extends` looks up the
literal key `"undefined"` (JavaScript property-key coercion). -/
def schemaPathsLoop (config : ApolloConfig) :
    Nat → Option SchemaDependency → List String → Except JSError (List String)
  | _, none, acc => .ok acc
  | 0, some _, _ => .error .outOfFuel
  | fuel + 1, some currentSchema, acc =>
    let acc :=
      if optStrTruthy currentSchema.schema then
        acc ++ [currentSchema.schema.getD ""]
      else acc
    schemaPathsLoop config fuel
      (lookupSchemas config (currentSchema.extendsRef.getD "undefined")) acc

/-- The per-document-set body of `resolveDocumentSets` (the async arrow
function of config.ts lines 307–347). -/
def resolveOneSet {AST Schema Intro : Type} (C : Collaborators AST Schema Intro)
    (fuel : Nat) (config : ApolloConfig) (needSchema : Bool)
    (tag : Option String) (doc : DocumentSet) :
    Except JSError (ResolvedDocumentSet Schema) := do
  let referredSchema :=
    if optStrTruthy doc.schema then lookupSchemas config (doc.schema.getD "")
    else none
  let schemaPaths ← schemaPathsLoop config fuel
    (lookupSchemas config (doc.schema.getD "undefined")) []
  let schemaObj ←
    if needSchema && optStrTruthy doc.schema then
      resolveSchema C fuel config (doc.schema.getD "") (jsTag tag)
    else .ok none
  .ok
    { schema := schemaObj,
      endpoint := referredSchema.bind (fun d => d.endpoint),
      engineKey := referredSchema.bind (fun d => d.engineKey),
      documentPaths :=
        (doc.includes.flatMap (fun i => C.glob i config.projectFolder)).filter
          (fun f => ¬ (doc.excludes ++ schemaPaths).any
            (fun e => C.minimatch (C.relativePath config.projectFolder f) e)),
      originalSet := doc }

/-- config.ts lines 301–349, `resolveDocumentSets(config, needSchema, tag)`:
every document set of `config.queries` is resolved (`Promise.all` rejects as
soon as one rejects; sequencing the sets models the same result/failure). -/
def resolveDocumentSets {AST Schema Intro : Type}
    (C : Collaborators AST Schema Intro) (fuel : Nat) (config : ApolloConfig)
    (needSchema : Bool) (tag : Option String) :
    Except JSError (List (ResolvedDocumentSet Schema)) :=
  config.queries.mapM (resolveOneSet C fuel config needSchema tag)

/-- A collaborator bundle over trivial schema types, with a pluggable glob
expander; introspection (`loadSchema`) always reports no result. -/
def unitCollab (globFn : String → String → List String) :
    Collaborators Unit Unit Unit :=
  { loadQueryDocument := fun _ => (),
    visitClientMark := fun a => a,
    extendSchema := fun _ _ => (),
    buildASTSchema := fun _ => (),
    loadSchema := fun _ _ _ => none,
    buildClientSchema := fun _ => (),
    glob := globFn,
    minimatch := fun _ _ => false,
    relativePath := fun _ f => f }

/-- Same bundle but with an introspection fetch that succeeds, to witness that
`needSchema = false` resolution cannot observe the difference. -/
def unitCollabIntrospecting (globFn : String → String → List String) :
    Collaborators Unit Unit Unit :=
  { unitCollab globFn with loadSchema := fun _ _ _ => some () }

/-- A canonical config whose single document set references a schema name that
is not a key of `schemas`. -/
def missingRefConfig : ApolloConfig :=
  { projectFolder := "/p",
    schemas := [],
    queries := [{ schema := some "missing", includes := ["**"], excludes := [] }] }

/-- A canonical config whose single document set has two include patterns
(both will be made to match the same file by the glob collaborator). -/
def dupGlobConfig : ApolloConfig :=
  { projectFolder := "/p",
    schemas := [],
    queries := [{ schema := none, includes := ["x", "y"], excludes := [] }] }

/-- A canonical config with one resolvable schema dependency carrying an
endpoint and an engine key, referenced by its single document set. -/
def frameConfig : ApolloConfig :=
  { projectFolder := "/p",
    schemas := [("main", { schema := some "schema.graphql",
                           endpoint := some { url := some "http://api" },
                           engineKey := some "k1" })],
    queries := [{ schema := some "main", includes := ["**"], excludes := [] }] }

/-- A canonical config with a cyclic `extends` chain: `A extends B`,
`B extends A`. -/
def cyclicConfig : ApolloConfig :=
  { projectFolder := "/p",
    schemas :=
      [("A", { schema := some "a.graphql", extendsRef := some "B" }),
       ("B", { schema := some "b.graphql", extendsRef := some "A" })],
    queries := [] }

theorem lookupField_setFields_same (fields : List (String × JSVal))
    (k : String) (v : JSVal) : lookupField (setFields fields k v) k = v := by
  induction fields with
  | nil => simp [setFields, lookupField]
  | cons hd tl ih =>
      obtain ⟨k', v'⟩ := hd
      by_cases hk : k' = k
      · simp [setFields, hk, lookupField]
      · simp [setFields, hk, lookupField, ih]

theorem lookupField_setFields_other (fields : List (String × JSVal))
    (k key : String) (v : JSVal) (h : key ≠ k) :
    lookupField (setFields fields k v) key = lookupField fields key := by
  induction fields with
  | nil => simp [setFields, lookupField, Ne.symm h]
  | cons hd tl ih =>
      obtain ⟨k', v'⟩ := hd
      by_cases hk : k' = k
      · subst hk
        simp [setFields, lookupField, Ne.symm h]
      · simp [setFields, hk, lookupField, ih]

theorem occursInChars_false_replaceFirstChars (pat rep : List Char) :
    ∀ l : List Char, occursInChars pat l = false →
      replaceFirstChars pat rep l = l := by
  intro l
  induction l with
  | nil => intro _; rfl
  | cons c cs ih =>
      intro h
      rw [occursInChars, Bool.or_eq_false_iff] at h
      rw [replaceFirstChars, if_neg (by simp [h.1]), ih h.2]

theorem replaceFirst_no_occurrence (s pat rep : String)
    (h : occursIn s pat = false) : replaceFirst s pat rep = s := by
  unfold replaceFirst
  rw [occursInChars_false_replaceFirstChars pat.data rep.data s.data h]

/-- C7, counterexample: the claim quantifies over EVERY bare string `s`, but
for `s = ""` the normalized endpoint is `{url: ""}` with NO subscriptions URL
at all — the empty url is falsy, so the derivation step of
`loadEndpointConfig` is skipped — while the claim requires a subscriptions URL
equal to `s` (no `"http"` occurs in `""`). -/
theorem loadEndpointConfig_empty_string_cex :
    loadEndpointConfig (.str "") true = .ok (.obj [("url", .str "")], .str "") ∧
    getProp (.obj [("url", .str "")]) "subscriptions" = .undefined ∧
    JSVal.undefined ≠ JSVal.str "" :=
  ⟨rfl, rfl, by simp⟩

/-- C7, amended: for every NONEMPTY bare string `s`, the normalized endpoint
is exactly `{url: s, subscriptions: s.replace("http", "ws")}` — first
occurrence only, case-sensitive, no other transformation — and when `s`
contains no `"http"` the derived subscriptions URL equals `s` unchanged.
(For `s = ""` the subscriptions field is absent instead; see the
counterexample.) -/
theorem loadEndpointConfig_bare_string_subscriptions (s : String) (b : Bool)
    (hs : s ≠ "") :
    loadEndpointConfig (.str s) b =
      .ok (.obj [("url", .str s),
                 ("subscriptions", .str (replaceFirst s "http" "ws"))],
           .str s) ∧
    (occursIn s "http" = false → replaceFirst s "http" "ws" = s) := by
  constructor
  · simp [loadEndpointConfig, typeOf, addSubscriptions, truthy, getProp,
      lookupField, setProp, setFields, hs, bind, Except.bind]
  · intro h
    exact replaceFirst_no_occurrence s "http" "ws" h

theorem loadEndpointConfig_bare_string_subscriptions_witness :
    "http://a" ≠ "" ∧
    loadEndpointConfig (.str "http://a") false =
      .ok (.obj [("url", .str "http://a"),
                 ("subscriptions", .str (replaceFirst "http://a" "http" "ws"))],
           .str "http://a") :=
  ⟨by decide,
   (loadEndpointConfig_bare_string_subscriptions "http://a" false (by decide)).1⟩

/-- C8: `getSchemasFromServices`, and `loadConfig` through it, throw a
TypeError on a raw object whose `services` mapping is present but empty —
`const [[serviceName, schemaRef]] = Object.entries(obj.services)` destructures
the first entry of an empty list — contradicting the policy that the
normalization layer never fails and the claim that these functions succeed on
every raw object, empty `services` included. -/
theorem getSchemasFromServices_empty_services_throws :
    ∀ (env : Option String) (fileExists : String → Bool)
      (dE dS : Bool) (cf cd : String),
      getSchemasFromServices env fileExists (.obj [("services", .obj [])])
        dE dS = .error .typeError ∧
      loadConfig env fileExists (.obj [("services", .obj [])]) cf cd dE dS =
        .error .typeError := by
  intro env fileExists dE dS cf cd
  exact ⟨rfl, rfl⟩

theorem loadSchemaConfig_obj_ok (env : Option String)
    (fields : List (String × JSVal)) (dE : Bool) (res after : JSVal)
    (h : loadSchemaConfig env (.obj fields) dE = .ok (res, after)) :
    ∃ ep epAfter,
      loadEndpointConfig (lookupField fields "endpoint")
        (!truthy (lookupField fields "engineKey") && dE) = .ok (ep, epAfter) ∧
      res = spreadWith (.obj fields)
        [("endpoint", ep),
         ("engineKey", jsOr (envVal env) (lookupField fields "engineKey"))] ∧
      after = (match lookupField fields "endpoint" with
               | .obj _ => setProp (.obj fields) "endpoint" epAfter
               | _ => .obj fields) := by
  unfold loadSchemaConfig at h
  simp only [getPropE, getProp, bind, Except.bind] at h
  cases hlep : loadEndpointConfig (lookupField fields "endpoint")
      (!truthy (lookupField fields "engineKey") && dE) with
  | error e => rw [hlep] at h; exact absurd h (by simp)
  | ok p =>
      rw [hlep] at h
      simp only [Except.ok.injEq, Prod.mk.injEq] at h
      exact ⟨p.1, p.2, by rw [← hlep], h.1.symm, h.2.symm⟩

theorem getProp_spreadWith_engineKey (fields : List (String × JSVal))
    (e g : JSVal) :
    getProp (spreadWith (.obj fields) [("endpoint", e), ("engineKey", g)])
      "engineKey" = g := by
  simp only [spreadWith, List.foldl, setProp, getProp]
  exact lookupField_setFields_same _ _ _

theorem getProp_spreadWith_other (fields : List (String × JSVal))
    (e g : JSVal) (key : String) (h1 : key ≠ "endpoint")
    (h2 : key ≠ "engineKey") :
    getProp (spreadWith (.obj fields) [("endpoint", e), ("engineKey", g)])
      key = lookupField fields key := by
  simp only [spreadWith, List.foldl, setProp, getProp]
  rw [lookupField_setFields_other _ _ _ _ h2, lookupField_setFields_other _ _ _ _ h1]

/-- C6: in the schema-dependency normalizer `loadSchemaConfig`, a present
(nonempty) `ENGINE_API_KEY` environment credential overrides any configured
engine key — the result's `engineKey` is the environment value — and when the
credential is absent the raw object's own `engineKey` is kept.  (An
environment value of `""` is falsy in `env || obj.engineKey` and behaves like
an absent credential.) -/
theorem loadSchemaConfig_engineKey_env_override
    (fields : List (String × JSVal)) (dE : Bool) :
    (∀ k : String, k ≠ "" → ∀ res after,
      loadSchemaConfig (some k) (.obj fields) dE = .ok (res, after) →
      getProp res "engineKey" = .str k) ∧
    (∀ res after,
      loadSchemaConfig none (.obj fields) dE = .ok (res, after) →
      getProp res "engineKey" = getProp (.obj fields) "engineKey") := by
  constructor
  · intro k hk res after h
    obtain ⟨ep, epAfter, _, hres, _⟩ := loadSchemaConfig_obj_ok _ _ _ _ _ h
    subst hres
    rw [getProp_spreadWith_engineKey]
    simp [jsOr, envVal, truthy, hk]
  · intro res after h
    obtain ⟨ep, epAfter, _, hres, _⟩ := loadSchemaConfig_obj_ok _ _ _ _ _ h
    subst hres
    rw [getProp_spreadWith_engineKey]
    simp [jsOr, envVal, truthy, getProp]

theorem loadSchemaConfig_engineKey_env_override_witness :
    ("env-key" ≠ "") ∧
    getProp (.obj [("engineKey", .str "env-key"), ("endpoint", .undefined)])
      "engineKey" = .str "env-key" :=
  ⟨by decide,
   (loadSchemaConfig_engineKey_env_override [("engineKey", .str "raw-key")]
       false).1 "env-key" (by decide)
     (.obj [("engineKey", .str "env-key"), ("endpoint", .undefined)])
     (.obj [("engineKey", .str "raw-key")]) rfl⟩

/-- C9, counterexample: `loadSchemaConfig` is NOT mutation-free on its input —
for the raw dependency `{endpoint: {url: "http://x"}, other: "z"}` the nested
endpoint object is mutated in place (it gains `subscriptions: "ws://x"`), so
the input observable after the call differs from the original input. -/
theorem loadSchemaConfig_mutates_endpoint_cex :
    loadSchemaConfig none
      (.obj [("endpoint", .obj [("url", .str "http://x")]),
             ("other", .str "z")]) false =
      .ok (.obj [("endpoint", .obj [("url", .str "http://x"),
                                    ("subscriptions", .str "ws://x")]),
                 ("other", .str "z"), ("engineKey", .undefined)],
           .obj [("endpoint", .obj [("url", .str "http://x"),
                                    ("subscriptions", .str "ws://x")]),
                 ("other", .str "z")]) ∧
    JSVal.obj [("endpoint", .obj [("url", .str "http://x"),
                                  ("subscriptions", .str "ws://x")]),
               ("other", .str "z")] ≠
      .obj [("endpoint", .obj [("url", .str "http://x")]),
            ("other", .str "z")] :=
  ⟨by rfl, by simp⟩

theorem addSubscriptions_obj (epf : List (String × JSVal)) (u : String)
    (hu : u ≠ "") (hurl : lookupField epf "url" = .str u)
    (hsub : truthy (lookupField epf "subscriptions") = false) :
    addSubscriptions (.obj epf) =
      .ok (.obj (setFields epf "subscriptions"
        (.str (replaceFirst u "http" "ws")))) := by
  have hg : getProp (.obj epf) "url" = .str u := hurl
  unfold addSubscriptions
  rw [hg, if_pos ⟨by simp [truthy], by simp [getProp, hsub], by simp [truthy, hu]⟩]
  rfl

theorem loadEndpointConfig_obj (epf : List (String × JSVal)) (b : Bool)
    (u : String) (hu : u ≠ "") (hurl : lookupField epf "url" = .str u)
    (hsub : truthy (lookupField epf "subscriptions") = false) :
    loadEndpointConfig (.obj epf) b =
      .ok (.obj (setFields epf "subscriptions" (.str (replaceFirst u "http" "ws"))),
           .obj (setFields epf "subscriptions" (.str (replaceFirst u "http" "ws")))) := by
  unfold loadEndpointConfig
  rw [if_neg (by simp [typeOf]), if_pos (by simp [truthy]),
    addSubscriptions_obj epf u hu hurl hsub]
  rfl

/-- C9, amended: `loadSchemaConfig` is a function of its input and the
environment, and every raw field other than `endpoint` and `engineKey` passes
through unchanged into the result; but it does NOT leave the input unmodified:
when the raw `endpoint` field holds an object with a truthy `url` and no
truthy `subscriptions`, that nested endpoint object is mutated in place,
gaining the derived subscriptions URL. -/
theorem loadSchemaConfig_passthrough_and_mutation :
    (∀ (fields : List (String × JSVal)) (env : Option String) (dE : Bool)
       (key : String), key ≠ "endpoint" → key ≠ "engineKey" →
       ∀ res after, loadSchemaConfig env (.obj fields) dE = .ok (res, after) →
         getProp res key = getProp (.obj fields) key) ∧
    (∀ (epf rest : List (String × JSVal)) (env : Option String) (dE : Bool)
       (u : String), u ≠ "" →
       lookupField epf "url" = .str u →
       truthy (lookupField epf "subscriptions") = false →
       ∀ res after,
         loadSchemaConfig env (.obj (("endpoint", .obj epf) :: rest)) dE =
           .ok (res, after) →
         getProp (getProp after "endpoint") "subscriptions" =
           .str (replaceFirst u "http" "ws")) := by
  constructor
  · intro fields env dE key h1 h2 res after h
    obtain ⟨ep, epAfter, _, hres, _⟩ := loadSchemaConfig_obj_ok _ _ _ _ _ h
    subst hres
    rw [getProp_spreadWith_other _ _ _ _ h1 h2]
    rfl
  · intro epf rest env dE u hu hurl hsub res after h
    obtain ⟨ep, epAfter, hlep, _, hafter⟩ := loadSchemaConfig_obj_ok _ _ _ _ _ h
    have hfirst : lookupField (("endpoint", JSVal.obj epf) :: rest) "endpoint"
        = .obj epf := by simp [lookupField]
    rw [hfirst] at hlep hafter
    rw [loadEndpointConfig_obj epf _ u hu hurl hsub] at hlep
    simp only [Except.ok.injEq, Prod.mk.injEq] at hlep
    rw [hafter]
    have h1 : getProp (setProp (.obj (("endpoint", JSVal.obj epf) :: rest))
        "endpoint" epAfter) "endpoint" = epAfter := by
      simp only [setProp, getProp]
      exact lookupField_setFields_same _ _ _
    rw [h1, ← hlep.2]
    exact lookupField_setFields_same _ _ _

theorem loadSchemaConfig_passthrough_and_mutation_witness :
    (("other" : String) ≠ "endpoint") ∧ (("other" : String) ≠ "engineKey") ∧
    getProp (.obj [("endpoint", .obj [("url", .str "http://x"),
                                      ("subscriptions", .str "ws://x")]),
                   ("other", .str "z"), ("engineKey", .undefined)]) "other" =
      getProp (.obj [("endpoint", .obj [("url", .str "http://x")]),
                     ("other", .str "z")]) "other" ∧
    ("http://x" ≠ "") ∧
    getProp (getProp (.obj [("endpoint", .obj [("url", .str "http://x"),
                                               ("subscriptions", .str "ws://x")]),
                            ("other", .str "z")]) "endpoint") "subscriptions" =
      .str (replaceFirst "http://x" "http" "ws") :=
  ⟨by decide, by decide,
   loadSchemaConfig_passthrough_and_mutation.1
     [("endpoint", .obj [("url", .str "http://x")]), ("other", .str "z")]
     none false "other" (by decide) (by decide) _ _ (by rfl),
   by decide,
   loadSchemaConfig_passthrough_and_mutation.2
     [("url", .str "http://x")] [("other", .str "z")]
     none false "http://x" (by decide) rfl rfl _ _ (by rfl)⟩

theorem truthy_undefined : truthy .undefined = false := rfl

theorem truthy_obj (l : List (String × JSVal)) : truthy (.obj l) = true := rfl

theorem truthy_str (s : String) : truthy (.str s) = decide (s ≠ "") := rfl

/-- C10: on a raw input with a truthy `clientSchema`, no `services` mapping and
`defaultSchema = true`, `getSchemasFromServices` first synthesizes a
`"default"` dependency and then overwrites it with `{schema: clientSchema,
clientSide: true, extends: "default"}` — the `extends` field names the entry's
own key, a self-referential extension chain with no terminal dependency. -/
theorem getSchemasFromServices_clientSchema_self_extends
    (env : Option String) (fileExists : String → Bool) (cs : JSVal) (dE : Bool)
    (hcs : truthy cs = true) :
    getSchemasFromServices env fileExists (.obj [("clientSchema", cs)]) dE true =
      .ok [("default", .obj [("schema", cs), ("clientSide", .bool true),
                             ("extends", .str "default")])] := by
  cases dE <;>
    simp [getSchemasFromServices, getPropE, getProp, lookupField,
      loadSchemaConfig, loadEndpointConfig, typeOf, addSubscriptions,
      spreadWith, setProp, setFields, jsEntries, hcs, bind, Except.bind,
      defaultLocalUrl, truthy_undefined, truthy_obj, truthy_str]

theorem getSchemasFromServices_clientSchema_self_extends_witness :
    truthy (.str "client.graphql") = true ∧
    getSchemasFromServices none (fun _ => false)
      (.obj [("clientSchema", .str "client.graphql")]) true true =
      .ok [("default", .obj [("schema", .str "client.graphql"),
                             ("clientSide", .bool true),
                             ("extends", .str "default")])] :=
  ⟨by decide,
   getSchemasFromServices_clientSchema_self_extends none (fun _ => false)
     (.str "client.graphql") true (by decide)⟩

/-- C3: evaluating `loadConfig` on the raw input
`{queries: "operations/**/*.graphql"}` with one schema named `"default"`
(defaultSchema = true).  The bare string is wrapped into the one-element
`queries` array and handed to `loadDocumentSet` AS IF it were a document-set
object; the lookup of its `includes` property finds the string method
`String.prototype.includes` — a function, truthy and not of type "string" —
so the resulting set is `{schema: undefined, includes:
String.prototype.includes, excludes: ["node_modules/**"]}`: the declared
`DocumentSet.includes: string[]` shape is violated and the string is NOT
promoted to `["operations/**/*.graphql"]`. -/
theorem loadConfig_bare_string_queries_eval :
    loadConfig none (fun _ => false)
        (.obj [("queries", .str "operations/**/*.graphql")])
        "apollo.config.js" "proj" true true =
      .ok { configFile := "apollo.config.js", projectFolder := "proj",
            name := "proj",
            schemas := [("default", .obj
              [("endpoint", .obj
                 [("url", .str "http://localhost:4000/graphql"),
                  ("subscriptions", .str "ws://localhost:4000/graphql")]),
               ("engineKey", .undefined)])],
            queries := [.obj [("schema", .undefined), ("includes", .fn),
                              ("excludes", .arr [.str "node_modules/**"])]],
            engineEndpoint := .undefined } ∧
    JSVal.fn ≠ JSVal.arr [.str "operations/**/*.graphql"] :=
  ⟨by rfl, by simp⟩

/-- C2: the claim is right about the intended design, but the code lacks any
visited-set guard: on the cyclic config `A extends B, B extends A`,
`resolveSchema` exhausts EVERY fuel bound — the recursion of config.ts lines
280–288 never terminates (JavaScript: unbounded recursion until stack
overflow), and no `CyclicExtension` error is ever produced. -/
theorem resolveSchema_cycle_diverges :
    ∀ {AST Schema Intro : Type} (C : Collaborators AST Schema Intro)
      (fuel : Nat) (tag : Option String),
      resolveSchema C fuel cyclicConfig "A" tag = .error .outOfFuel ∧
      resolveSchema C fuel cyclicConfig "B" tag = .error .outOfFuel := by
  intro AST Schema Intro C fuel
  have hA : lookupSchemas cyclicConfig "A" =
      some { schema := some "a.graphql", extendsRef := some "B" } := rfl
  have hB : lookupSchemas cyclicConfig "B" =
      some { schema := some "b.graphql", extendsRef := some "A" } := rfl
  induction fuel with
  | zero => intro tag; exact ⟨rfl, rfl⟩
  | succ n ih =>
      intro tag
      constructor
      · have h := (ih (jsTag tag)).2
        simp [resolveSchema, hA, optStrTruthy, h, bind, Except.bind]
      · have h := (ih (jsTag tag)).1
        simp [resolveSchema, hB, optStrTruthy, h, bind, Except.bind]

theorem except_mapM_singleton {ε α β : Type} (f : α → Except ε β) (a : α) :
    List.mapM f [a] = (f a).bind (fun b => .ok [b]) := by
  cases h : f a <;>
    simp [List.mapM, List.mapM.loop, h, Except.bind, bind, pure, Except.pure]

theorem except_mapM_loop_singleton {ε α β : Type} (f : α → Except ε β) (a : α) :
    List.mapM.loop f [a] [] = (f a).bind (fun b => .ok [b]) := by
  cases h : f a <;>
    simp [List.mapM.loop, h, Except.bind, bind, pure, Except.pure]

/-- C1, counterexample: with a document set referencing the absent schema name
`"missing"` and `needSchema = false`, `resolveDocumentSets` does NOT fail —
it succeeds and silently resolves the set with absent `endpoint` and
`engineKey`, refuting the claim that it fails fast for any value of
`needSchema`. -/
theorem resolveDocumentSets_missing_schema_no_failure_cex :
    resolveDocumentSets (unitCollab (fun _ _ => ["/p/q.graphql"])) 3
        missingRefConfig false none =
      .ok [{ schema := none, endpoint := none, engineKey := none,
             documentPaths := ["/p/q.graphql"],
             originalSet := { schema := some "missing", includes := ["**"],
                              excludes := [] } }] := by rfl

/-- C1, amended: `resolveSchema` on a name absent from `config.schemas` always
fails (the unknown-reference failure — at runtime a TypeError reading
`.extends` of `undefined`); `resolveDocumentSets` propagates that failure for
a dangling document-set schema reference ONLY when `needSchema` is true —
with `needSchema = false` the set is silently resolved with absent
`endpoint`, `engineKey` and schema. -/
theorem resolve_missing_reference_behavior :
    (∀ {AST Schema Intro : Type} (C : Collaborators AST Schema Intro)
       (n : Nat) (config : ApolloConfig) (name : String) (tag : Option String),
       lookupSchemas config name = none →
       resolveSchema C (n + 1) config name tag =
         .error .unknownSchemaReference) ∧
    (∀ {AST Schema Intro : Type} (C : Collaborators AST Schema Intro)
       (n : Nat) (config : ApolloConfig) (doc : DocumentSet)
       (tag : Option String),
       config.queries = [doc] →
       optStrTruthy doc.schema = true →
       lookupSchemas config (doc.schema.getD "") = none →
       resolveDocumentSets C (n + 1) config true tag =
         .error .unknownSchemaReference ∧
       ∃ r, resolveDocumentSets C (n + 1) config false tag = .ok [r] ∧
         r.schema = none ∧ r.endpoint = none ∧ r.engineKey = none) := by
  have hres : ∀ {AST Schema Intro : Type} (C : Collaborators AST Schema Intro)
      (n : Nat) (config : ApolloConfig) (name : String) (tag : Option String),
      lookupSchemas config name = none →
      resolveSchema C (n + 1) config name tag =
        .error .unknownSchemaReference := by
    intro AST Schema Intro C n config name tag h
    simp [resolveSchema, h]
  refine ⟨hres, ?_⟩
  intro AST Schema Intro C n config doc tag hq hs hl
  obtain ⟨s, hsome⟩ : ∃ s, doc.schema = some s := by
    cases hdoc : doc.schema with
    | none => rw [hdoc] at hs; simp [optStrTruthy] at hs
    | some s => exact ⟨s, rfl⟩
  rw [hsome] at hs hl
  simp only [Option.getD] at hl
  constructor
  · simp [resolveDocumentSets, hq, except_mapM_singleton,
      except_mapM_loop_singleton, resolveOneSet, hsome, hs, hl,
      schemaPathsLoop, hres C n config s (jsTag tag) hl, bind, Except.bind]
  · refine ⟨{ schema := none, endpoint := none, engineKey := none,
              documentPaths := (doc.includes.flatMap
                  (fun i => C.glob i config.projectFolder)).filter
                (fun f => ¬ doc.excludes.any
                  (fun e => C.minimatch (C.relativePath config.projectFolder f) e)),
              originalSet := doc }, ?_, rfl, rfl, rfl⟩
    simp [resolveDocumentSets, hq, except_mapM_singleton,
      except_mapM_loop_singleton, resolveOneSet, hsome, hs, hl,
      schemaPathsLoop, bind, Except.bind]

theorem resolve_missing_reference_behavior_witness :
    lookupSchemas missingRefConfig "missing" = none ∧
    resolveSchema (unitCollab (fun _ _ => [])) 3 missingRefConfig "missing"
      none = .error .unknownSchemaReference ∧
    resolveDocumentSets (unitCollab (fun _ _ => [])) 3 missingRefConfig true
      none = .error .unknownSchemaReference :=
  ⟨rfl,
   resolve_missing_reference_behavior.1 (unitCollab (fun _ _ => [])) 2
     missingRefConfig "missing" none rfl,
   (resolve_missing_reference_behavior.2 (unitCollab (fun _ _ => [])) 2
     missingRefConfig
     { schema := some "missing", includes := ["**"], excludes := [] }
     none rfl (by decide) rfl).1⟩

theorem except_mapM_loop_congruent {ε α β : Type} {f g : α → Except ε β}
    (h : ∀ a, f a = g a) :
    ∀ (l : List α) (acc : List β),
      List.mapM.loop f l acc = List.mapM.loop g l acc := by
  intro l
  induction l with
  | nil => intro acc; rfl
  | cons a t ih =>
      intro acc
      simp only [List.mapM.loop, h a]
      cases g a with
      | error e => rfl
      | ok b => exact ih (b :: acc)

theorem except_mapM_congruent {ε α β : Type} {f g : α → Except ε β}
    (h : ∀ a, f a = g a) (l : List α) : l.mapM f = l.mapM g :=
  except_mapM_loop_congruent h l []

theorem except_mapM_loop_ok_mem {ε α β : Type} (f : α → Except ε β) :
    ∀ (l : List α) (acc ys : List β), List.mapM.loop f l acc = .ok ys →
      ∀ y ∈ ys, y ∈ acc ∨ ∃ a ∈ l, f a = .ok y := by
  intro l
  induction l with
  | nil =>
      intro acc ys h y hy
      simp only [List.mapM.loop, pure, Except.pure, Except.ok.injEq] at h
      subst h
      exact Or.inl (List.mem_reverse.mp hy)
  | cons a t ih =>
      intro acc ys h y hy
      simp only [List.mapM.loop, bind, Except.bind] at h
      cases hfa : f a with
      | error e => rw [hfa] at h; exact absurd h (by simp)
      | ok b =>
          rw [hfa] at h
          rcases ih (b :: acc) ys h y hy with hacc | ⟨a', ha', hfa'⟩
          · rcases List.mem_cons.mp hacc with hb | hacc'
            · exact Or.inr ⟨a, List.mem_cons_self a t, by rw [hfa, hb]⟩
            · exact Or.inl hacc'
          · exact Or.inr ⟨a', List.mem_cons_of_mem a ha', hfa'⟩

theorem except_mapM_ok_mem {ε α β : Type} (f : α → Except ε β)
    (l : List α) (ys : List β) (h : l.mapM f = .ok ys) :
    ∀ y ∈ ys, ∃ a ∈ l, f a = .ok y := by
  intro y hy
  rcases except_mapM_loop_ok_mem f l [] ys h y hy with hacc | hex
  · exact absurd hacc (List.not_mem_nil y)
  · exact hex

theorem resolveOneSet_ok_inv {AST Schema Intro : Type}
    (C : Collaborators AST Schema Intro) (fuel : Nat) (config : ApolloConfig)
    (needSchema : Bool) (tag : Option String) (doc : DocumentSet)
    (r : ResolvedDocumentSet Schema)
    (h : resolveOneSet C fuel config needSchema tag doc = .ok r) :
    ∃ schemaPaths,
      schemaPathsLoop config fuel
        (lookupSchemas config (doc.schema.getD "undefined")) [] =
        .ok schemaPaths ∧
      r.documentPaths =
        (doc.includes.flatMap (fun i => C.glob i config.projectFolder)).filter
          (fun f => ¬ (doc.excludes ++ schemaPaths).any
            (fun e => C.minimatch (C.relativePath config.projectFolder f) e)) ∧
      r.originalSet = doc ∧
      (needSchema = false → r.schema = none) := by
  simp only [resolveOneSet, bind, Except.bind] at h
  cases hsp : schemaPathsLoop config fuel
      (lookupSchemas config (doc.schema.getD "undefined")) [] with
  | error e => rw [hsp] at h; exact absurd h (by simp)
  | ok sp =>
      refine ⟨sp, rfl, ?_⟩
      cases hns : (needSchema && optStrTruthy doc.schema) with
      | false =>
          simp only [hsp, hns, Bool.false_eq_true, if_false,
            Except.ok.injEq] at h
          subst h
          exact ⟨rfl, rfl, fun _ => rfl⟩
      | true =>
          simp only [hsp, hns, if_true] at h
          cases hrs : resolveSchema C fuel config (doc.schema.getD "")
              (jsTag tag) with
          | error e => rw [hrs] at h; exact absurd h (by simp)
          | ok so =>
              simp only [hrs, Except.ok.injEq] at h
              subst h
              refine ⟨rfl, rfl, fun hfalse => ?_⟩
              rw [hfalse] at hns
              simp at hns

/-- C4, counterexample: `documentPaths` is NOT deduplicated — the per-pattern
glob results are concatenated by `flatMap`, so when the two include patterns
`"x"` and `"y"` both match `/p/a.graphql`, the resolved set lists that path
twice. -/
theorem resolveDocumentSets_duplicate_paths_cex :
    resolveDocumentSets (unitCollab (fun _ _ => ["/p/a.graphql"])) 3
        dupGlobConfig false none =
      .ok [{ schema := none, endpoint := none, engineKey := none,
             documentPaths := ["/p/a.graphql", "/p/a.graphql"],
             originalSet := { schema := none, includes := ["x", "y"],
                              excludes := [] } }] ∧
    ¬ (["/p/a.graphql", "/p/a.graphql"] : List String).Nodup :=
  ⟨by rfl, by decide⟩

/-- C4, amended: `documentPaths` is the CONCATENATION of the per-pattern glob
expansions (filtered by excludes and schema paths), with no cross-pattern
deduplication; it is guaranteed duplicate-free whenever the glob
collaborator's per-pattern results are themselves duplicate-free and pairwise
disjoint across the set's include patterns (a sufficient condition: with
overlapping globs the duplicates survive unless the filter happens to drop
them). -/
theorem documentPaths_nodup_of_disjoint_globs :
    ∀ {AST Schema Intro : Type} (C : Collaborators AST Schema Intro)
      (fuel : Nat) (config : ApolloConfig) (needSchema : Bool)
      (tag : Option String),
      (∀ doc ∈ config.queries,
        (∀ i ∈ doc.includes, (C.glob i config.projectFolder).Nodup) ∧
        doc.includes.Pairwise
          (List.Disjoint on fun i => C.glob i config.projectFolder)) →
      ∀ sets, resolveDocumentSets C fuel config needSchema tag = .ok sets →
        ∀ r ∈ sets, r.documentPaths.Nodup := by
  intro AST Schema Intro C fuel config needSchema tag hdisj sets hok r hr
  obtain ⟨doc, hdoc, hone⟩ := except_mapM_ok_mem _ _ _ hok r hr
  obtain ⟨sp, _, hpaths, _, _⟩ := resolveOneSet_ok_inv _ _ _ _ _ _ _ hone
  rw [hpaths]
  apply List.Nodup.filter
  exact List.nodup_flatMap.mpr ⟨(hdisj doc hdoc).1, (hdisj doc hdoc).2⟩

theorem documentPaths_nodup_of_disjoint_globs_witness :
    resolveDocumentSets
        (unitCollab (fun i _ => if i = "x" then ["/p/x.graphql"]
                                else ["/p/y.graphql"])) 3
        dupGlobConfig false none =
      .ok [{ schema := none, endpoint := none, engineKey := none,
             documentPaths := ["/p/x.graphql", "/p/y.graphql"],
             originalSet := { schema := none, includes := ["x", "y"],
                              excludes := [] } }] ∧
    (["/p/x.graphql", "/p/y.graphql"] : List String).Nodup :=
  ⟨by rfl,
   documentPaths_nodup_of_disjoint_globs
     (unitCollab (fun i _ => if i = "x" then ["/p/x.graphql"]
                             else ["/p/y.graphql"]))
     3 dupGlobConfig false none
     (by
       intro doc hdoc
       simp only [dupGlobConfig, List.mem_singleton] at hdoc
       subst hdoc
       refine ⟨?_, ?_⟩
       · intro i hi
         rcases List.mem_cons.mp hi with h1 | h1
         · subst h1; decide
         · rcases List.mem_singleton.mp h1 with rfl; decide
       · refine List.pairwise_cons.mpr ⟨?_, List.pairwise_singleton _ _⟩
         intro i hi
         rcases List.mem_singleton.mp hi with rfl
         intro a ha hb
         simp [unitCollab] at ha hb
         subst ha
         exact absurd hb (by decide))
     [{ schema := none, endpoint := none, engineKey := none,
        documentPaths := ["/p/x.graphql", "/p/y.graphql"],
        originalSet := { schema := none, includes := ["x", "y"],
                         excludes := [] } }]
     (by rfl)
     { schema := none, endpoint := none, engineKey := none,
       documentPaths := ["/p/x.graphql", "/p/y.graphql"],
       originalSet := { schema := none, includes := ["x", "y"],
                        excludes := [] } }
     (List.mem_singleton.mpr rfl)⟩

/-- C5: with `needSchema = false`, `resolveDocumentSets` never consults the
introspection fetch or any AST/schema-construction collaborator — its result
is identical for any two collaborator bundles agreeing only on the glob,
minimatch and path collaborators (even for different tags) — and every
returned `ResolvedDocumentSet` has an absent `schema` field. -/
theorem resolveDocumentSets_no_schema_frame :
    ∀ {AST Schema Intro : Type} (C C' : Collaborators AST Schema Intro)
      (fuel : Nat) (config : ApolloConfig) (tag tag' : Option String),
      C.glob = C'.glob → C.minimatch = C'.minimatch →
      C.relativePath = C'.relativePath →
      resolveDocumentSets C fuel config false tag =
        resolveDocumentSets C' fuel config false tag' ∧
      ∀ sets, resolveDocumentSets C fuel config false tag = .ok sets →
        ∀ r ∈ sets, r.schema = none := by
  intro AST Schema Intro C C' fuel config tag tag' hg hm hr
  constructor
  · unfold resolveDocumentSets
    apply except_mapM_congruent
    intro doc
    unfold resolveOneSet
    rw [hg, hm, hr]
    simp
  · intro sets hok r hrm
    obtain ⟨doc, hdoc, hone⟩ := except_mapM_ok_mem _ _ _ hok r hrm
    obtain ⟨_, _, _, _, hnone⟩ := resolveOneSet_ok_inv _ _ _ _ _ _ _ hone
    exact hnone rfl

theorem resolveDocumentSets_no_schema_frame_witness :
    resolveDocumentSets (unitCollab (fun _ _ => ["/p/q.graphql"])) 3
        frameConfig false none =
      resolveDocumentSets (unitCollabIntrospecting (fun _ _ => ["/p/q.graphql"]))
        3 frameConfig false (some "prod") ∧
    ResolvedDocumentSet.schema
      { schema := (none : Option Unit),
        endpoint := some { url := some "http://api" },
        engineKey := some "k1",
        documentPaths := ["/p/q.graphql"],
        originalSet := { schema := some "main", includes := ["**"],
                         excludes := [] } } = none :=
  ⟨(resolveDocumentSets_no_schema_frame
      (unitCollab (fun _ _ => ["/p/q.graphql"]))
      (unitCollabIntrospecting (fun _ _ => ["/p/q.graphql"]))
      3 frameConfig none (some "prod") rfl rfl rfl).1,
   (resolveDocumentSets_no_schema_frame
      (unitCollab (fun _ _ => ["/p/q.graphql"]))
      (unitCollabIntrospecting (fun _ _ => ["/p/q.graphql"]))
      3 frameConfig none (some "prod") rfl rfl rfl).2
     [{ schema := none,
        endpoint := some { url := some "http://api" },
        engineKey := some "k1",
        documentPaths := ["/p/q.graphql"],
        originalSet := { schema := some "main", includes := ["**"],
                         excludes := [] } }]
     (by rfl)
     { schema := none,
       endpoint := some { url := some "http://api" },
       engineKey := some "k1",
       documentPaths := ["/p/q.graphql"],
       originalSet := { schema := some "main", includes := ["**"],
                        excludes := [] } }
     (List.mem_singleton.mpr rfl)⟩
